import Mathlib

/-!
Shallow embedding of `topik/models/base_model_output.py`: the abstract
topic-model result contract (`TopicModelResultBase`), its derived
statistics, the pyLDAvis visualization transform, and the
`load_model`/`save` persistence protocol.

Modelling conventions:
* numeric topic weights are modelled as `ℚ` (the algorithms are purely
  comparison-based);
* a pandas `Series` keyed by ids is modelled as an association list;
* a Python `dict` built from a pair list is modelled with Python's
  semantics (first-insertion key order, later value wins);
* Python exceptions (`ValueError` from `np.argpartition`, the
  `ValueError` from unpacking `zip(*[])`, `KeyError`, `NameError`) are
  modelled as `Option`/`Except` failures;
* `np.argsort` is modelled as a stable sort, i.e. the unique sort by the
  lexicographic key (weight, original index); the
  `np.argpartition`-then-`np.argsort` composition in `get_top_words` is
  modelled extensionally as "stable full sort ascending, keep the last
  `topn` positions" (identical on all tie-free inputs, and matching the
  stable resolution of ties).
-/

/-- The corpus adapter consumed by the result contract (external to the
core; only the attributes the source file reads are modelled).
`_corpus` is the sequence of `(document-id, [(term-id, count), ...])`
pairs that `self._corpus._corpus` yields, `_dict` is the term-id → word
vocabulary behind `_dict`/`get_id2word_dict()`, and `term_topic_matrix`
is the corpus's cached term-topic matrix attribute. -/
structure Corpus where
  _corpus : List (Nat × List (Nat × Nat))
  _dict : List (Nat × String)
  term_topic_matrix : List (List ℚ)

/-- Iterating `self._corpus` (as `_get_term_frequency` does with
`for doc in self._corpus`) yields the per-document `(term-id, count)`
pair sequences, without the document ids. -/
def Corpus.iterDocs (c : Corpus) : List (List (Nat × Nat)) :=
  c._corpus.map Prod.snd

/-- Vocabulary lookup `self._corpus.get_id2word_dict()[word_id]`.
A missing id would be a Python `KeyError`; the claims only evaluate it on
ids covered by `_dict`, so the lookup is totalised with `""`. -/
def Corpus.get_id2word_dict (c : Corpus) : Nat → String :=
  fun word_id => ((c._dict.lookup word_id).getD "")

/-- The abstract result object.  `dz` is the dense weight matrix the
source iterates as `self.dz.T` (so `dz` has one row per term and one
column per topic).  `doc_topic` is the documents × topics matrix behind
the subclass-provided `_get_doc_topic_dists` (modelled from the spec).
`class_name` stands for `self.__class__.__name__` and
`name_with_parameters` for the value of the abstract
`get_model_name_with_parameters()` (modelled from the spec: a pure,
stable key string). -/
structure TopicModelResultBase where
  _corpus : Corpus
  dz : List (List ℚ)
  doc_topic : List (List ℚ)
  class_name : String
  name_with_parameters : String

/-- Method `get_model_name_with_parameters()`: abstract naming function,
modelled from the spec as a pure accessor of the stored key string. -/
def TopicModelResultBase.get_model_name_with_parameters
    (m : TopicModelResultBase) : String :=
  m.name_with_parameters

/-- The comparison a stable ascending argsort of `topic` realises on
indices: strictly smaller weight, or equal weight with the original
(index) order kept. -/
def lexLe (topic : List ℚ) (i j : Nat) : Prop :=
  topic.getD i 0 < topic.getD j 0 ∨
    (topic.getD i 0 = topic.getD j 0 ∧ i ≤ j)

instance lexLe.decidableRel (topic : List ℚ) : DecidableRel (lexLe topic) :=
  fun i j => by unfold lexLe; infer_instance

/-- Model of `np.argsort(topic)` as a stable argsort: the indices
`0, ..., topic.length - 1` sorted in ascending weight order, equal
weights kept in ascending index order (the lexicographic (weight, index)
key, which is what a stable sort of an increasing index range produces). -/
def argsortAsc (topic : List ℚ) : List Nat :=
  (List.range topic.length).insertionSort (lexLe topic)

/-- One topic row of `get_top_words`:
`word_ids = np.argpartition(topic, -topn)[-topn:]` followed by
`word_ids = reversed(word_ids[np.argsort(topic[word_ids])])` and the
final `(topic[word_id], id2word[word_id])` comprehension.

`np.argpartition(topic, -topn)` raises `ValueError` (modelled `none`)
unless `-len ≤ -topn < len`, i.e. unless `topn ≤ len` and `len ≠ 0`.
The Python slice `[-topn:]` keeps the whole array when `topn = 0` and
the last `topn` entries otherwise.  The partition/argsort composition is
modelled as the stable full ascending sort with the last `topn`
positions kept, then reversed. -/
def topWordsRow (id2word : Nat → String) (topic : List ℚ) (topn : Nat) :
    Option (List (ℚ × String)) :=
  if topic.length = 0 ∨ topic.length < topn then none
  else
    let s := argsortAsc topic
    let word_ids := (if topn = 0 then s else s.drop (s.length - topn)).reverse
    some (word_ids.map fun word_id => (topic.getD word_id 0, id2word word_id))

/-- The `for topic in self.dz.T: ... top_words.append(...)` loop body:
each row is computed in order and the first raised exception aborts the
whole call. -/
def topWordsRows (id2word : Nat → String) (topn : Nat) :
    List (List ℚ) → Option (List (List (ℚ × String)))
  | [] => some []
  | topic :: rest =>
    match topWordsRow id2word topic topn, topWordsRows id2word topn rest with
    | some row, some rows => some (row :: rows)
    | _, _ => none

/-- Method `get_top_words(self, topn)`: iterate the rows of `self.dz.T` (the
topics), selecting the `topn` highest-weight `(weight, word)` pairs per
topic in descending weight order. -/
def TopicModelResultBase.get_top_words (m : TopicModelResultBase)
    (topn : Nat) : Option (List (List (ℚ × String))) :=
  topWordsRows m._corpus.get_id2word_dict topn (List.transpose m.dz)

/-- One insertion into a Python dict under construction: a pair whose
key is already present overwrites that key's value in place, otherwise
it is appended. -/
def pyDictStep {α : Type} (acc : List (Nat × α)) (p : Nat × α) :
    List (Nat × α) :=
  if acc.any fun q => q.1 == p.1 then
    acc.map fun q => if q.1 == p.1 then (q.1, p.2) else q
  else acc ++ [p]

/-- Python `dict(pairs)`: keys appear in first-insertion order and a
later pair overwrites the value stored for an equal earlier key. -/
def pyDict {α : Type} (pairs : List (Nat × α)) : List (Nat × α) :=
  pairs.foldl pyDictStep []

/-- Model of `Counter.update(d)` for a dict `d`: add each `(key, value)` of `d`
to the running counts.  The counter is modelled by its count function. -/
def counterUpdate (tf : Nat → Nat) (d : List (Nat × Nat)) : Nat → Nat :=
  d.foldl (fun acc p t => if t = p.1 then acc t + p.2 else acc t) tf

/-- Method `_get_term_frequency(self)`: `tf = Counter()` followed by
`tf.update(dict(doc))` for each `doc in self._corpus`, returned as the
per-term-id total count mapping (`pd.Series(dict(tf))`). -/
def TopicModelResultBase._get_term_frequency (m : TopicModelResultBase) :
    Nat → Nat :=
  m._corpus.iterDocs.foldl (fun tf doc => counterUpdate tf (pyDict doc))
    fun _ => 0

/-- Total number of occurrences of term-id `t` recorded in one
document's `(term-id, count)` pair list. -/
def termCount (doc : List (Nat × Nat)) (t : Nat) : Nat :=
  ((doc.filter fun p => p.1 = t).map Prod.snd).sum

/-- Method `_get_vocab(self)`: `pd.Series(dict(self._corpus._dict.items()))`.
`_dict` is already a Python dict, so rebuilding it from its items is
the identity; the series is the id → word association. -/
def TopicModelResultBase._get_vocab (m : TopicModelResultBase) :
    List (Nat × String) :=
  m._corpus._dict

/-- Method `_get_doc_lengths(self)`:
`id_index, doc_lengths = zip(*[(id, len(doc)) for id, doc in list(self._corpus._corpus)])`.
On the empty corpus `zip(*[])` yields nothing, so the two-name tuple
unpacking raises `ValueError` (modelled `none`); otherwise the result is
the `document-id → len(doc)` series, where `len(doc)` is the number of
`(term-id, count)` pairs in the document. -/
def TopicModelResultBase._get_doc_lengths (m : TopicModelResultBase) :
    Option (List (Nat × Nat)) :=
  match m._corpus._corpus with
  | [] => none
  | docs => some (docs.map fun p => (p.1, p.2.length))

/-- Modelled from the spec: the subclass-provided `_get_doc_topic_dists`
used by `_get_doc_data` (absent from this source file) returns the
Document-Topic Matrix as a documents × topics table. -/
def TopicModelResultBase._get_doc_topic_dists (m : TopicModelResultBase) :
    List (List ℚ) :=
  m.doc_topic

/-- Modelled from the spec: the subclass-provided `_get_topic_term_dists`
used by `_get_term_data` (absent from this source file) returns the
term-topic weights as a terms × topics table, one row per term-id in
vocabulary order, one column per topic. -/
def TopicModelResultBase._get_topic_term_dists (m : TopicModelResultBase) :
    List (List ℚ) :=
  m.dz

/-- The merged document table built by `_get_doc_data`: the
documents × topics columns plus the appended `doc_length` column. -/
structure DocData where
  doc_topic : List (List ℚ)
  doc_length : List (Nat × Nat)
  deriving DecidableEq

/-- Method `_get_doc_data(self)`: take `self._get_doc_topic_dists()` and append
`self._get_doc_lengths()` as the `doc_length` column; the `ValueError`
from `_get_doc_lengths` on an empty corpus propagates. -/
def TopicModelResultBase._get_doc_data (m : TopicModelResultBase) :
    Option DocData :=
  match m._get_doc_lengths with
  | none => none
  | some lens =>
    some { doc_topic := m._get_doc_topic_dists, doc_length := lens }

/-- The merged term table built by `_get_term_data`: the terms × topics
columns of `_get_topic_term_dists`, plus the appended `term_frequency`
and `term` columns, index-aligned on term-id. -/
structure TermData where
  topics : List (List ℚ)
  term_frequency : List (Nat × Nat)
  term : List (Nat × String)
  deriving DecidableEq

/-- Method `_get_term_data(self)`: start from `self._get_topic_term_dists()`
and append the `term_frequency` and `term` columns; pandas aligns both
assignments on the term-id index. -/
def TopicModelResultBase._get_term_data (m : TopicModelResultBase) :
    TermData :=
  { topics := m._get_topic_term_dists
    term_frequency := m._get_vocab.map fun p => (p.1, m._get_term_frequency p.1)
    term := m._get_vocab }

/-- The value types appearing in the pyLDAvis payload dict. -/
inductive VisField where
  | words : List (Nat × String) → VisField
  | counts : List (Nat × Nat) → VisField
  | mat : List (List ℚ) → VisField
  | lens : List (Nat × Nat) → VisField
  deriving DecidableEq

/-- Projection of a payload value to a matrix, when it is one. -/
def VisField.asMat : VisField → Option (List (List ℚ))
  | .mat M => some M
  | _ => none

/-- Method `to_py_lda_vis(self)`: the five-entry payload dict, in the literal
key order of the source.  `term_data_df.iloc[:, :-2]` drops the two
appended columns, recovering the terms × topics table, and `.T`
transposes it; `doc_data_df.iloc[:, :-1]` drops the appended
`doc_length` column, recovering the documents × topics table. -/
def TopicModelResultBase.to_py_lda_vis (m : TopicModelResultBase) :
    Option (List (String × VisField)) :=
  match m._get_doc_data with
  | none => none
  | some doc_data_df =>
    let term_data_df := m._get_term_data
    some [("vocab", .words term_data_df.term),
          ("term_frequency", .counts term_data_df.term_frequency),
          ("topic_term_dists", .mat (List.transpose term_data_df.topics)),
          ("doc_topic_dists", .mat doc_data_df.doc_topic),
          ("doc_lengths", .lens doc_data_df.doc_length)]

/-- Method `term_topic_matrix(self)`: the body is the bare expression
`self._corpus.term_topic_matrix` with no `return` statement, so the
attribute is read, discarded, and the call returns Python `None`
(modelled `none`). -/
def TopicModelResultBase.term_topic_matrix (m : TopicModelResultBase) :
    Option (List (List ℚ)) :=
  let _read := m._corpus.term_topic_matrix
  none

/-- A Persisted Model Record: the `{"class": ..., "saved_data": ...}`
dictionary that `save` stores and `load_model` reads back.
Constructor-argument values are modelled as strings (scalar/primitive
values per the spec). -/
structure ModelRecord where
  cls : String
  saved_data : List (String × String)
  deriving DecidableEq

/-- Modelled from the spec: the external Persistor is a key-value store
of named model records, consumed through `store_model`,
`list_available_models` and `get_model_details`.  A later `store_model`
under the same name shadows the earlier record in lookups. -/
structure Persistor where
  models : List (String × ModelRecord)

def Persistor.list_available_models (p : Persistor) : List String :=
  p.models.map Prod.fst

def Persistor.get_model_details (p : Persistor) (name : String) :
    Option ModelRecord :=
  p.models.lookup name

def Persistor.store_model (p : Persistor) (name : String)
    (record : ModelRecord) : Persistor :=
  { models := (name, record) :: p.models }

/-- The observable effects of `save`: the persistor reached through
`self._persistor` (the property returning `self._corpus.persistor`) and
the filenames the corpus was asked to persist itself under
(`self._corpus.save(filename)`, modelled from the spec: the corpus's own
save contract). -/
structure SaveWorld where
  persistor : Persistor
  corpus_saves : List String

/-- Method `save(self, filename, saved_data)`: first
`self._persistor.store_model(self.get_model_name_with_parameters(),
{"class": self.__class__.__name__, "saved_data": saved_data})`, then
`self._corpus.save(filename)`. -/
def TopicModelResultBase.save (m : TopicModelResultBase)
    (filename : String) (saved_data : List (String × String))
    (w : SaveWorld) : SaveWorld :=
  let record : ModelRecord := { cls := m.class_name, saved_data := saved_data }
  let p1 := w.persistor.store_model m.get_model_name_with_parameters record
  let w1 : SaveWorld := { w with persistor := p1 }
  { w1 with corpus_saves := filename :: w1.corpus_saves }

/-- The two failures `load_model` can produce: the explicit `NameError`
for a model name absent from the catalog, and the `KeyError` a failed
dict lookup (registry or record) would raise. -/
inductive LoadError where
  | nameError (msg : String)
  | keyError (key : String)
  deriving DecidableEq

/-- Function `load_model(filename, model_name)`: with `p = Persistor(filename)`,
if `model_name in p.list_available_models()` then read the record and
return `registered_models[data_dict["class"]](**data_dict["saved_data"])`,
else raise
`NameError("Model name {} has not yet been created.".format(model_name))`.
The process-wide `registered_models` registry (populated outside this
source file) is passed explicitly as a type-identifier → constructor
map, and the already-opened Persistor stands in for `filename`. -/
def load_model
    (registered_models :
      List (String × (List (String × String) → TopicModelResultBase)))
    (p : Persistor) (model_name : String) :
    Except LoadError TopicModelResultBase :=
  if model_name ∈ p.list_available_models then
    match p.get_model_details model_name with
    | some data_dict =>
      match registered_models.lookup data_dict.cls with
      | some ctor => .ok (ctor data_dict.saved_data)
      | none => .error (.keyError data_dict.cls)
    | none => .error (.keyError model_name)
  else
    .error (.nameError
      ("Model name " ++ model_name ++ " has not yet been created."))

/-- Concrete result object: vocabulary {0 ↦ alpha, 1 ↦ beta}, one topic
with weights 1 and 2 (`dz` is terms × topics). -/
def mC1 : TopicModelResultBase :=
  { _corpus := { _corpus := [(0, [(0, 1), (1, 1)])]
                 _dict := [(0, "alpha"), (1, "beta")]
                 term_topic_matrix := [] }
    dz := [[1], [2]]
    doc_topic := [[1]]
    class_name := "LDATopikModel"
    name_with_parameters := "LDA_1_topics" }

/-- Concrete result object with one topic whose two term weights tie at
5. -/
def mC2 : TopicModelResultBase :=
  { _corpus := { _corpus := [(0, [(0, 1), (1, 1)])]
                 _dict := [(0, "alpha"), (1, "beta")]
                 term_topic_matrix := [] }
    dz := [[5], [5]]
    doc_topic := [[1]]
    class_name := "LDATopikModel"
    name_with_parameters := "LDA_1_topics" }

/-- Concrete result object whose corpus caches the term-topic matrix
`[[7]]`. -/
def mC4 : TopicModelResultBase :=
  { _corpus := { _corpus := [(0, [(0, 1)])]
                 _dict := [(0, "alpha")]
                 term_topic_matrix := [[7]] }
    dz := [[7]]
    doc_topic := [[1]]
    class_name := "LDATopikModel"
    name_with_parameters := "LDA_1_topics" }

/-- Concrete result object over the spec's example corpus
`[{a:2, b:1}, {a:1, c:3}]` with term-ids a = 0, b = 1, c = 2. -/
def mC5 : TopicModelResultBase :=
  { _corpus := { _corpus := [(0, [(0, 2), (1, 1)]), (1, [(0, 1), (2, 3)])]
                 _dict := [(0, "a"), (1, "b"), (2, "c")]
                 term_topic_matrix := [] }
    dz := [[1], [1], [1]]
    doc_topic := [[1], [1]]
    class_name := "LDATopikModel"
    name_with_parameters := "LDA_1_topics" }

/-- Concrete result object with 3 terms, 2 topics and 1 document, so
the two payload matrix orientations are distinguishable. -/
def mC7 : TopicModelResultBase :=
  { _corpus := { _corpus := [(0, [(0, 1)])]
                 _dict := [(0, "t0"), (1, "t1"), (2, "t2")]
                 term_topic_matrix := [] }
    dz := [[1, 2], [3, 4], [5, 6]]
    doc_topic := [[1, 0]]
    class_name := "LDATopikModel"
    name_with_parameters := "LDA_2_topics" }

/-- Concrete result object over the empty corpus. -/
def mC10 : TopicModelResultBase :=
  { _corpus := { _corpus := [], _dict := [], term_topic_matrix := [] }
    dz := []
    doc_topic := []
    class_name := "LDATopikModel"
    name_with_parameters := "LDA_0_topics" }

/-- A registered constructor: rebuilds a fixed result object from the
stored argument mapping. -/
def ctorC8 : List (String × String) → TopicModelResultBase :=
  fun _ => mC7

/-- A concrete model registry with one registered type identifier. -/
def regC8 : List (String × (List (String × String) → TopicModelResultBase)) :=
  [("LDATopikModel", ctorC8)]

/-- A concrete Persisted Model Record. -/
def recC8 : ModelRecord :=
  { cls := "LDATopikModel", saved_data := [("ntopics", "3")] }

/-- A concrete persistor catalog holding `recC8` under the name
`LDA_3_topics`. -/
def perC8 : Persistor :=
  { models := [("LDA_3_topics", recC8)] }

theorem lexLe_total (topic : List ℚ) :
    ∀ i j, lexLe topic i j ∨ lexLe topic j i := by
  intro i j
  unfold lexLe
  rcases lt_trichotomy (topic.getD i 0) (topic.getD j 0) with h | h | h
  · exact Or.inl (Or.inl h)
  · rcases Nat.le_total i j with hij | hij
    · exact Or.inl (Or.inr ⟨h, hij⟩)
    · exact Or.inr (Or.inr ⟨h.symm, hij⟩)
  · exact Or.inr (Or.inl h)

theorem lexLe_trans (topic : List ℚ) :
    ∀ i j k, lexLe topic i j → lexLe topic j k → lexLe topic i k := by
  intro i j k hij hjk
  rcases hij with h1 | ⟨h1, h1'⟩ <;> rcases hjk with h2 | ⟨h2, h2'⟩
  · exact Or.inl (h1.trans h2)
  · exact Or.inl (h1.trans_eq h2)
  · exact Or.inl (h1.trans_lt h2)
  · exact Or.inr ⟨h1.trans h2, h1'.trans h2'⟩

theorem lexLe_antisymm (topic : List ℚ) :
    ∀ i j, lexLe topic i j → lexLe topic j i → i = j := by
  intro i j hij hji
  rcases hij with h1 | ⟨h1, h1'⟩ <;> rcases hji with h2 | ⟨h2, h2'⟩
  · exact absurd (h1.trans h2) (lt_irrefl _)
  · exact absurd (h1.trans_eq h2) (lt_irrefl _)
  · exact absurd (h2.trans_eq h1) (lt_irrefl _)
  · exact Nat.le_antisymm h1' h2'

/-- The complete characterisation of one top-words row when
`1 ≤ topn ≤ topic.length`: there is a list `ids` of selected term-ids
with the row equal to its `(weight, word)` image, `ids` has exactly
`topn` distinct in-range entries, is strictly ordered by descending
(weight, term-id), and lexicographically dominates every unselected
term-id. -/
theorem topWordsRow_decomp (id2word : Nat → String) (topic : List ℚ)
    (topn : Nat) (h1 : 1 ≤ topn) (h2 : topn ≤ topic.length) :
    ∃ ids : List Nat,
      topWordsRow id2word topic topn =
        some (ids.map fun i => (topic.getD i 0, id2word i)) ∧
      ids.length = topn ∧ ids.Nodup ∧
      (∀ i ∈ ids, i < topic.length) ∧
      ids.Pairwise (fun i j =>
        topic.getD j 0 < topic.getD i 0 ∨
          (topic.getD i 0 = topic.getD j 0 ∧ j < i)) ∧
      ∀ j, j < topic.length → j ∉ ids → ∀ i ∈ ids,
        topic.getD j 0 < topic.getD i 0 ∨
          (topic.getD j 0 = topic.getD i 0 ∧ j < i) := by
  have hperm : (argsortAsc topic).Perm (List.range topic.length) :=
    List.perm_insertionSort _ _
  have hslen : (argsortAsc topic).length = topic.length := by
    simpa using hperm.length_eq
  have hsnodup : (argsortAsc topic).Nodup :=
    hperm.symm.nodup (List.nodup_range _)
  have hmem : ∀ i, i ∈ argsortAsc topic ↔ i < topic.length := by
    intro i; rw [hperm.mem_iff, List.mem_range]
  haveI : IsTotal Nat (lexLe topic) := ⟨lexLe_total topic⟩
  haveI : IsTrans Nat (lexLe topic) := ⟨lexLe_trans topic⟩
  have hsorted : (argsortAsc topic).Pairwise (lexLe topic) :=
    List.sorted_insertionSort _ _
  have hcond : ¬(topic.length = 0 ∨ topic.length < topn) := by omega
  have htopn : ¬ topn = 0 := by omega
  have hdropmem : ∀ i,
      i ∈ (argsortAsc topic).drop ((argsortAsc topic).length - topn) →
        i ∈ argsortAsc topic :=
    fun i hi => (List.drop_sublist _ _).subset hi
  refine ⟨((argsortAsc topic).drop
      ((argsortAsc topic).length - topn)).reverse, ?_, ?_, ?_, ?_, ?_, ?_⟩
  · simp only [topWordsRow, if_neg hcond, if_neg htopn]
  · rw [List.length_reverse, List.length_drop, hslen]
    omega
  · exact List.nodup_reverse.mpr
      ((List.drop_sublist _ _).nodup hsnodup)
  · intro i hi
    exact (hmem i).mp (hdropmem i (List.mem_reverse.mp hi))
  · rw [List.pairwise_reverse]
    have hd : ((argsortAsc topic).drop
        ((argsortAsc topic).length - topn)).Pairwise (lexLe topic) :=
      List.Pairwise.sublist (List.drop_sublist _ _) hsorted
    have hnd : ((argsortAsc topic).drop
        ((argsortAsc topic).length - topn)).Pairwise (· ≠ ·) :=
      (List.drop_sublist _ _).nodup hsnodup
    refine (hd.and hnd).imp ?_
    rintro a b ⟨hab, hne⟩
    rcases hab with h | ⟨h, h'⟩
    · exact Or.inl h
    · exact Or.inr ⟨h.symm, lt_of_le_of_ne h' hne⟩
  · intro j hj hjnot i hi
    have hjs : j ∈ argsortAsc topic := (hmem j).mpr hj
    have hid : i ∈ (argsortAsc topic).drop
        ((argsortAsc topic).length - topn) := List.mem_reverse.mp hi
    have hjtake : j ∈ (argsortAsc topic).take
        ((argsortAsc topic).length - topn) := by
      have hsplit := List.take_append_drop
        ((argsortAsc topic).length - topn) (argsortAsc topic)
      rcases List.mem_append.mp (by rw [hsplit]; exact hjs) with h | h
      · exact h
      · exact absurd (List.mem_reverse.mpr h) hjnot
    have hcross : lexLe topic j i := by
      have hp : ((argsortAsc topic).take ((argsortAsc topic).length - topn) ++
          (argsortAsc topic).drop
            ((argsortAsc topic).length - topn)).Pairwise (lexLe topic) := by
        rw [List.take_append_drop]; exact hsorted
      exact (List.pairwise_append.mp hp).2.2 j hjtake i hid
    have hne : j ≠ i := by
      intro h; exact hjnot (h ▸ hi)
    rcases hcross with h | ⟨h, h'⟩
    · exact Or.inl h
    · exact Or.inr ⟨h, lt_of_le_of_ne h' hne⟩

example :
    topWordsRow (fun i => toString i) [(1 : ℚ), 3, 2] 2 =
      some [((3 : ℚ), "1"), ((2 : ℚ), "2")] := by decide

-- topn = 0 slices the whole array: every term comes back.
example :
    topWordsRow (fun i => toString i) [(1 : ℚ), 3, 2] 0 =
      some [((3 : ℚ), "1"), ((2 : ℚ), "2"), ((1 : ℚ), "0")] := by decide

-- equal weights: the higher term-id is emitted first.
example :
    topWordsRow (fun i => toString i) [(5 : ℚ), 5] 2 =
      some [((5 : ℚ), "1"), ((5 : ℚ), "0")] := by decide

-- topn larger than the row: np.argpartition raises.
example : topWordsRow (fun i => toString i) [(1 : ℚ), 3, 2] 4 = none := by
  decide

/-- Mapping `topWordsRow` over the topic rows succeeds, row-wise related
to the input, as soon as every row succeeds with the desired relation. -/
theorem topWordsRows_forall₂ (id2word : Nat → String) (topn : Nat)
    (P : List ℚ → List (ℚ × String) → Prop) (rows : List (List ℚ))
    (h : ∀ topic ∈ rows,
      ∃ r, topWordsRow id2word topic topn = some r ∧ P topic r) :
    ∃ out, topWordsRows id2word topn rows = some out ∧
      List.Forall₂ P rows out := by
  induction rows with
  | nil => exact ⟨[], rfl, List.Forall₂.nil⟩
  | cons topic rest ih =>
    obtain ⟨r, hr, hp⟩ := h topic (List.mem_cons_self _ _)
    obtain ⟨out, hout, hf⟩ := ih fun t ht => h t (List.mem_cons_of_mem _ ht)
    refine ⟨r :: out, ?_, List.Forall₂.cons hp hf⟩
    simp [topWordsRows, hr, hout]

/-- If one topic row fails, the whole `get_top_words` loop fails. -/
theorem topWordsRows_none (id2word : Nat → String) (topn : Nat)
    (rows : List (List ℚ)) (topic : List ℚ) (hmem : topic ∈ rows)
    (h : topWordsRow id2word topic topn = none) :
    topWordsRows id2word topn rows = none := by
  induction rows with
  | nil => cases hmem
  | cons t rest ih =>
    rcases List.mem_cons.mp hmem with rfl | hmem'
    · cases hrest : topWordsRows id2word topn rest <;>
        simp [topWordsRows, h, hrest]
    · cases ht : topWordsRow id2word t topn <;>
        simp [topWordsRows, ht, ih hmem']

/-- C1 counterexample: with vocabulary size 2, calling
`get_top_words(0)` — and 0 does not exceed the vocabulary size — returns
a topic list of 2 entries, not 0: the Python slice `[-0:]` keeps the
whole array, so the claim's "exactly topn pairs" fails at `topn = 0`. -/
theorem C1_counterexample :
    0 ≤ 2 ∧
    (List.transpose mC1.dz).map List.length = [2] ∧
    mC1.get_top_words 0 = some [[((2 : ℚ), "beta"), ((1 : ℚ), "alpha")]] ∧
    [((2 : ℚ), "beta"), ((1 : ℚ), "alpha")].length ≠ 0 :=
  ⟨by decide, by decide, by decide, by decide⟩

/-- C1 (amended): for every `topn` with `1 ≤ topn` and `topn` at most
each topic row's length (the vocabulary size), `get_top_words topn`
succeeds with one entry list per topic; each list holds exactly `topn`
(weight, term) pairs of distinct in-range term-ids, its weights are
non-increasing, and every returned weight is ≥ the weight of every
term-id of that topic that was not selected. -/
theorem C1_get_top_words_topk (m : TopicModelResultBase) (topn : Nat)
    (h1 : 1 ≤ topn)
    (h2 : ∀ topic ∈ List.transpose m.dz, topn ≤ topic.length) :
    ∃ out, m.get_top_words topn = some out ∧
      out.length = (List.transpose m.dz).length ∧
      List.Forall₂ (fun topic row =>
        row.length = topn ∧
        (row.map Prod.fst).Sorted (· ≥ ·) ∧
        ∃ ids : List Nat, ids.Nodup ∧ (∀ i ∈ ids, i < topic.length) ∧
          row = ids.map (fun i =>
            (topic.getD i 0, m._corpus.get_id2word_dict i)) ∧
          ∀ j, j < topic.length → j ∉ ids →
            ∀ q ∈ row.map Prod.fst, topic.getD j 0 ≤ q)
        (List.transpose m.dz) out := by
  have hall : ∀ topic ∈ List.transpose m.dz,
      ∃ r, topWordsRow m._corpus.get_id2word_dict topic topn = some r ∧
        (r.length = topn ∧
         (r.map Prod.fst).Sorted (· ≥ ·) ∧
         ∃ ids : List Nat, ids.Nodup ∧ (∀ i ∈ ids, i < topic.length) ∧
           r = ids.map (fun i =>
             (topic.getD i 0, m._corpus.get_id2word_dict i)) ∧
           ∀ j, j < topic.length → j ∉ ids →
             ∀ q ∈ r.map Prod.fst, topic.getD j 0 ≤ q) := by
    intro topic htopic
    obtain ⟨ids, heq, hlen, hnodup, hlt, hpair, hcross⟩ :=
      topWordsRow_decomp m._corpus.get_id2word_dict topic topn h1
        (h2 topic htopic)
    refine ⟨_, heq, ?_, ?_, ids, hnodup, hlt, rfl, ?_⟩
    · simp [hlen]
    · show List.Pairwise _ _
      rw [List.map_map, List.pairwise_map]
      refine hpair.imp ?_
      rintro a b (h | ⟨h, _⟩)
      · exact le_of_lt h
      · exact h.ge
    · intro j hj hjn q hq
      rw [List.map_map] at hq
      obtain ⟨i, hi, rfl⟩ := List.mem_map.mp hq
      rcases hcross j hj hjn i hi with h | ⟨h, _⟩
      · exact le_of_lt h
      · exact le_of_eq h
  obtain ⟨out, hout, hf⟩ :=
    topWordsRows_forall₂ m._corpus.get_id2word_dict topn _
      (List.transpose m.dz) hall
  exact ⟨out, hout, hf.length_eq.symm, hf⟩

theorem C1_get_top_words_topk_witness :
    1 ≤ 1 ∧ (∀ topic ∈ List.transpose mC1.dz, 1 ≤ topic.length) ∧
    ∃ out, mC1.get_top_words 1 = some out ∧
      out.length = (List.transpose mC1.dz).length ∧
      List.Forall₂ (fun topic row =>
        row.length = 1 ∧
        (row.map Prod.fst).Sorted (· ≥ ·) ∧
        ∃ ids : List Nat, ids.Nodup ∧ (∀ i ∈ ids, i < topic.length) ∧
          row = ids.map (fun i =>
            (topic.getD i 0, mC1._corpus.get_id2word_dict i)) ∧
          ∀ j, j < topic.length → j ∉ ids →
            ∀ q ∈ row.map Prod.fst, topic.getD j 0 ≤ q)
        (List.transpose mC1.dz) out :=
  ⟨by decide, by decide, C1_get_top_words_topk mC1 1 (by decide) (by decide)⟩

/-- C2 counterexample: two terms tie at weight 5 and both sit at the
ordering boundary; `get_top_words` returns `beta` (term-id 1) before
`alpha` (term-id 0), so the tie is NOT broken by preferring the lower
term-id. -/
theorem C2_counterexample :
    mC2.get_top_words 2 =
      some [[((5 : ℚ), "beta"), ((5 : ℚ), "alpha")]] ∧
    some [[((5 : ℚ), "beta"), ((5 : ℚ), "alpha")]] ≠
      some [[((5 : ℚ), "alpha"), ((5 : ℚ), "beta")]] :=
  ⟨by decide, by decide⟩

/-- C2 (amended): with `np.argsort` modelled as stable, equal-weight
ties are broken by preferring the HIGHER original term-id — both between
two selected entries (the ascending stable sort is reversed) and at the
selection boundary — and the output is deterministic on identical input
(the selection is a pure function). -/
theorem C2_tie_break_higher_id (id2word : Nat → String) (topic : List ℚ)
    (topn : Nat) (h1 : 1 ≤ topn) (h2 : topn ≤ topic.length) :
    ∃ ids : List Nat,
      topWordsRow id2word topic topn =
        some (ids.map fun i => (topic.getD i 0, id2word i)) ∧
      ids.Pairwise (fun i j =>
        topic.getD i 0 = topic.getD j 0 → j < i) ∧
      ∀ j, j < topic.length → j ∉ ids → ∀ i ∈ ids,
        topic.getD j 0 = topic.getD i 0 → j < i := by
  obtain ⟨ids, heq, -, -, -, hpair, hcross⟩ :=
    topWordsRow_decomp id2word topic topn h1 h2
  refine ⟨ids, heq, ?_, ?_⟩
  · refine hpair.imp ?_
    rintro a b (h | ⟨-, h'⟩) heqw
    · exact absurd (heqw ▸ h) (lt_irrefl _)
    · exact h'
  · intro j hj hjn i hi heqw
    rcases hcross j hj hjn i hi with h | ⟨-, h'⟩
    · exact absurd (heqw ▸ h) (lt_irrefl _)
    · exact h'

theorem C2_tie_break_higher_id_witness :
    1 ≤ 2 ∧ 2 ≤ ([(5 : ℚ), 5] : List ℚ).length ∧
    ∃ ids : List Nat,
      topWordsRow mC2._corpus.get_id2word_dict [(5 : ℚ), 5] 2 =
        some (ids.map fun i =>
          (([(5 : ℚ), 5] : List ℚ).getD i 0,
            mC2._corpus.get_id2word_dict i)) ∧
      ids.Pairwise (fun i j =>
        ([(5 : ℚ), 5] : List ℚ).getD i 0 =
          ([(5 : ℚ), 5] : List ℚ).getD j 0 → j < i) ∧
      ∀ j, j < ([(5 : ℚ), 5] : List ℚ).length → j ∉ ids → ∀ i ∈ ids,
        ([(5 : ℚ), 5] : List ℚ).getD j 0 =
          ([(5 : ℚ), 5] : List ℚ).getD i 0 → j < i :=
  ⟨by decide, by decide,
    C2_tie_break_higher_id mC2._corpus.get_id2word_dict [(5 : ℚ), 5] 2
      (by decide) (by decide)⟩

/-- C3 counterexample: vocabulary size 2 but `topn = 3`: the call fails
(`np.argpartition(topic, -3)` raises `ValueError`) instead of returning
a result under a clamping policy. -/
theorem C3_counterexample :
    (List.transpose mC1.dz).map List.length = [2] ∧ 2 < 3 ∧
    mC1.get_top_words 3 = none :=
  ⟨by decide, by decide, by decide⟩

/-- C3 (amended): whenever `topn` exceeds the length of some topic row
(in particular whenever it exceeds the vocabulary size), `get_top_words`
fails — `np.argpartition` raises `ValueError` for its out-of-bounds
`kth` argument — rather than clamping `topn` to the vocabulary size. -/
theorem C3_topn_over_vocab (m : TopicModelResultBase) (topn : Nat)
    (topic : List ℚ) (hmem : topic ∈ List.transpose m.dz)
    (h : topic.length < topn) :
    m.get_top_words topn = none := by
  refine topWordsRows_none _ _ _ topic hmem ?_
  unfold topWordsRow
  rw [if_pos (Or.inr h)]

theorem C3_topn_over_vocab_witness :
    [(1 : ℚ), 2] ∈ List.transpose mC1.dz ∧
    ([(1 : ℚ), 2] : List ℚ).length < 3 ∧
    mC1.get_top_words 3 = none :=
  ⟨by decide, by decide,
    C3_topn_over_vocab mC1 3 [(1 : ℚ), 2] (by decide) (by decide)⟩

/-- C4 (code bug): `term_topic_matrix()` reads the corpus attribute but
has no `return` statement, so every call returns Python `None` — never
the cached term-topic matrix; at `mC4` the cached matrix `[[7]]` is read
and dropped. -/
theorem C4_term_topic_matrix_returns_none :
    (∀ m : TopicModelResultBase, m.term_topic_matrix = none) ∧
    mC4._corpus.term_topic_matrix = [[(7 : ℚ)]] ∧
    mC4.term_topic_matrix ≠ some mC4._corpus.term_topic_matrix :=
  ⟨fun _ => rfl, by decide, by decide⟩

/-- On a nonempty corpus `_get_doc_lengths` succeeds, pairing every
document-id with its document's pair count. -/
theorem doc_lengths_eq (m : TopicModelResultBase)
    (h : m._corpus._corpus ≠ []) :
    m._get_doc_lengths =
      some (m._corpus._corpus.map fun p => (p.1, p.2.length)) := by
  unfold TopicModelResultBase._get_doc_lengths
  cases hc : m._corpus._corpus with
  | nil => exact absurd hc h
  | cons a l => rfl

/-- C5 counterexample: over the corpus `[{a:2, b:1}, {a:1, c:3}]` the
code yields `{doc0: 2, doc1: 2}` — `len(doc)` counts the
`(term-id, count)` pairs — not the claimed token totals
`{doc0: 3, doc1: 4}`. -/
theorem C5_counterexample :
    mC5._get_doc_lengths = some [(0, 2), (1, 2)] ∧
    mC5._get_doc_lengths ≠ some [(0, 3), (1, 4)] :=
  ⟨by decide, by decide⟩

/-- C5 (amended): on a nonempty corpus `_get_doc_lengths` maps each
document-id, in corpus order and keyed by document identity, to the
number of DISTINCT TERM ENTRIES of the document (the length of its
`(term-id, count)` pair list), not to the sum of its counts. -/
theorem C5_doc_lengths_distinct_terms (m : TopicModelResultBase)
    (h : m._corpus._corpus ≠ []) :
    ∃ tbl, m._get_doc_lengths = some tbl ∧
      tbl.map Prod.fst = m._corpus._corpus.map Prod.fst ∧
      List.Forall₂ (fun doc entry =>
          entry.1 = doc.1 ∧ entry.2 = doc.2.length)
        m._corpus._corpus tbl := by
  refine ⟨_, doc_lengths_eq m h, ?_, ?_⟩
  · rw [List.map_map]
    rfl
  · rw [List.forall₂_map_right_iff, List.forall₂_same]
    exact fun a _ => ⟨rfl, rfl⟩

theorem C5_doc_lengths_distinct_terms_witness :
    mC5._corpus._corpus ≠ [] ∧
    ∃ tbl, mC5._get_doc_lengths = some tbl ∧
      tbl.map Prod.fst = mC5._corpus._corpus.map Prod.fst ∧
      List.Forall₂ (fun doc entry =>
          entry.1 = doc.1 ∧ entry.2 = doc.2.length)
        mC5._corpus._corpus tbl :=
  ⟨by decide, C5_doc_lengths_distinct_terms mC5 (by decide)⟩

/-- Folding Python-dict insertions of pairs with fresh keys onto an
accumulator just appends them. -/
theorem pyDict_append_nodup {α : Type} (doc : List (Nat × α)) :
    ∀ acc : List (Nat × α), ((acc ++ doc).map Prod.fst).Nodup →
      doc.foldl pyDictStep acc = acc ++ doc := by
  induction doc with
  | nil => intro acc _; simp
  | cons p rest ih =>
    intro acc h
    have hnot : (acc.any fun q => q.1 == p.1) = false := by
      rw [List.any_eq_false]
      rintro ⟨k, v⟩ hq
      simp only [beq_iff_eq]
      intro hkp
      have h1 : k ∈ acc.map Prod.fst := List.mem_map_of_mem Prod.fst hq
      have h2 : p.1 ∈ (p :: rest).map Prod.fst :=
        List.mem_map_of_mem Prod.fst (List.mem_cons_self _ _)
      rw [List.map_append] at h
      exact (List.nodup_append.mp h).2.2 h1 (by rw [hkp]; exact h2)
    have hstep : pyDictStep acc p = acc ++ [p] := by
      unfold pyDictStep
      rw [hnot]
      simp
    rw [List.foldl_cons, hstep,
      ih (acc ++ [p]) (by rw [List.append_assoc, List.singleton_append]; exact h),
      List.append_assoc, List.singleton_append]

/-- Python `dict(doc)` is the identity on documents without duplicate
term-ids. -/
theorem pyDict_of_nodup_keys (doc : List (Nat × Nat))
    (h : (doc.map Prod.fst).Nodup) : pyDict doc = doc := by
  have := pyDict_append_nodup doc [] (by simpa using h)
  simpa [pyDict] using this

theorem termCount_cons (p : Nat × Nat) (rest : List (Nat × Nat)) (t : Nat) :
    termCount (p :: rest) t =
      (if p.1 = t then p.2 else 0) + termCount rest t := by
  by_cases h : p.1 = t <;> simp [termCount, List.filter_cons, h]

/-- One `Counter.update` adds exactly each key's recorded count. -/
theorem counterUpdate_eval (d : List (Nat × Nat)) :
    ∀ (tf : Nat → Nat) (t : Nat),
      counterUpdate tf d t = tf t + termCount d t := by
  induction d with
  | nil => intro tf t; simp [counterUpdate, termCount]
  | cons p rest ih =>
    intro tf t
    have h1 : counterUpdate tf (p :: rest) =
        counterUpdate (fun s => if s = p.1 then tf s + p.2 else tf s) rest :=
      rfl
    rw [h1, ih, termCount_cons]
    show (if t = p.1 then tf t + p.2 else tf t) + termCount rest t = _
    by_cases h : t = p.1
    · rw [if_pos h, if_pos h.symm]
      omega
    · rw [if_neg h, if_neg fun hh => h hh.symm]
      omega

/-- Accumulating the whole corpus sums each term's counts over all
documents (given proper per-document term→count mappings). -/
theorem tf_fold_eval (docs : List (List (Nat × Nat))) :
    ∀ tf : Nat → Nat, ∀ t : Nat,
      (∀ doc ∈ docs, (doc.map Prod.fst).Nodup) →
      docs.foldl (fun acc doc => counterUpdate acc (pyDict doc)) tf t =
        tf t + (docs.map fun doc => termCount doc t).sum := by
  induction docs with
  | nil => intro tf t _; simp
  | cons doc rest ih =>
    intro tf t h
    have hd := h doc (List.mem_cons_self _ _)
    have hstep :
        (doc :: rest).foldl (fun acc d => counterUpdate acc (pyDict d)) tf =
          rest.foldl (fun acc d => counterUpdate acc (pyDict d))
            (counterUpdate tf (pyDict doc)) := rfl
    rw [hstep, ih _ t fun d hdd => h d (List.mem_cons_of_mem _ hdd),
      pyDict_of_nodup_keys doc hd, counterUpdate_eval, List.map_cons,
      List.sum_cons]
    omega

/-- C6 counterexample: over the corpus `[{a:2, b:1}, {a:1, c:3}]` the
accumulated frequency of c (term-id 2) is 3, not the 4 the claim
states.  (a and b come out 3 and 1 as claimed.) -/
theorem C6_counterexample :
    mC5._get_term_frequency 0 = 3 ∧
    mC5._get_term_frequency 1 = 1 ∧
    mC5._get_term_frequency 2 = 3 ∧
    mC5._get_term_frequency 2 ≠ 4 :=
  ⟨by decide, by decide, by decide, by decide⟩

/-- C6 (amended): when every document is a proper term→count mapping (no
duplicate term-ids inside one document), `_get_term_frequency` scans the
corpus once and assigns each term-id the total of its counts accumulated
over all documents — so the example corpus yields {a:3, b:1, c:3}. -/
theorem C6_term_frequency (m : TopicModelResultBase)
    (h : ∀ doc ∈ m._corpus.iterDocs, (doc.map Prod.fst).Nodup) (t : Nat) :
    m._get_term_frequency t =
      (m._corpus.iterDocs.map fun doc => termCount doc t).sum := by
  unfold TopicModelResultBase._get_term_frequency
  rw [tf_fold_eval _ _ _ h]
  omega

theorem C6_term_frequency_witness :
    (∀ doc ∈ mC5._corpus.iterDocs, (doc.map Prod.fst).Nodup) ∧
    mC5._get_term_frequency 2 =
      (mC5._corpus.iterDocs.map fun doc => termCount doc 2).sum ∧
    mC5._get_term_frequency 0 = 3 ∧
    mC5._get_term_frequency 1 = 1 ∧
    mC5._get_term_frequency 3 = 0 :=
  ⟨by decide, C6_term_frequency mC5 (by decide) 2,
    by decide, by decide, by decide⟩

/-- On a nonempty corpus `_get_doc_data` succeeds with the
documents × topics columns plus the appended lengths column. -/
theorem doc_data_eq (m : TopicModelResultBase)
    (h : m._corpus._corpus ≠ []) :
    m._get_doc_data = some
      { doc_topic := m._get_doc_topic_dists
        doc_length := m._corpus._corpus.map fun p => (p.1, p.2.length) } := by
  unfold TopicModelResultBase._get_doc_data
  rw [doc_lengths_eq m h]

/-- C7 counterexample: with 3 terms, 2 topics and 1 document, the
payload's first field is named `vocab` — not `vocabulary` — and
`topic_term_dists` has 2 rows (topics × terms, the transpose of the
terms × topics table), not the 3 rows a terms × topics orientation would
give. -/
theorem C7_counterexample :
    mC7.to_py_lda_vis =
      some [("vocab", .words [(0, "t0"), (1, "t1"), (2, "t2")]),
            ("term_frequency", .counts [(0, 1), (1, 0), (2, 0)]),
            ("topic_term_dists",
              .mat [[(1 : ℚ), 3, 5], [(2 : ℚ), 4, 6]]),
            ("doc_topic_dists", .mat [[(1 : ℚ), 0]]),
            ("doc_lengths", .lens [(0, 1)])] ∧
    "vocabulary" ∉ ["vocab", "term_frequency", "topic_term_dists",
                    "doc_topic_dists", "doc_lengths"] ∧
    mC7.dz.length = 3 ∧
    ([[(1 : ℚ), 3, 5], [(2 : ℚ), 4, 6]] : List (List ℚ)).length ≠ 3 :=
  ⟨by decide, by decide, by decide, by decide⟩

/-- C7 (amended): for every result object over a nonempty corpus the
payload record has exactly the five keys `vocab` (not `vocabulary`),
`term_frequency`, `topic_term_dists`, `doc_topic_dists`, `doc_lengths`,
in that order; `topic_term_dists` is the TRANSPOSE of the terms × topics
table — i.e. topics × terms — and `doc_topic_dists` is the
documents × topics matrix unchanged. -/
theorem C7_payload_fields (m : TopicModelResultBase)
    (h : m._corpus._corpus ≠ []) :
    ∃ payload, m.to_py_lda_vis = some payload ∧
      payload.map Prod.fst =
        ["vocab", "term_frequency", "topic_term_dists",
         "doc_topic_dists", "doc_lengths"] ∧
      payload.lookup "topic_term_dists" =
        some (.mat (List.transpose m._get_topic_term_dists)) ∧
      payload.lookup "doc_topic_dists" =
        some (.mat m._get_doc_topic_dists) := by
  unfold TopicModelResultBase.to_py_lda_vis
  rw [doc_data_eq m h]
  exact ⟨_, rfl, rfl, rfl, rfl⟩

theorem C7_payload_fields_witness :
    mC7._corpus._corpus ≠ [] ∧
    ∃ payload, mC7.to_py_lda_vis = some payload ∧
      payload.map Prod.fst =
        ["vocab", "term_frequency", "topic_term_dists",
         "doc_topic_dists", "doc_lengths"] ∧
      payload.lookup "topic_term_dists" =
        some (.mat (List.transpose mC7._get_topic_term_dists)) ∧
      payload.lookup "doc_topic_dists" =
        some (.mat mC7._get_doc_topic_dists) :=
  ⟨by decide, C7_payload_fields mC7 (by decide)⟩

/-- A successful association-list lookup means the key is in the key
column. -/
theorem lookup_mem_keys {β : Type} (l : List (String × β)) (a : String)
    (b : β) (h : l.lookup a = some b) : a ∈ l.map Prod.fst := by
  induction l with
  | nil => simp [List.lookup] at h
  | cons q rest ih =>
    obtain ⟨k, v⟩ := q
    by_cases hk : a = k
    · subst hk
      simp
    · have hf : (a == k) = false := beq_eq_false_iff_ne.mpr hk
      have hrest : rest.lookup a = some b := by
        simpa [List.lookup, hf] using h
      simpa using Or.inr (ih hrest)

/-- C8: `load_model` on a name absent from the catalog fails with
exactly the `NameError` whose message names the missing model — so no
registered constructor runs and no unrelated error escapes — and on a
name whose record is in the catalog and whose type identifier is
registered it returns the object built by that constructor applied to
the stored argument mapping. -/
theorem C8_load_model
    (registered_models :
      List (String × (List (String × String) → TopicModelResultBase)))
    (p : Persistor) (model_name : String) :
    (model_name ∉ p.list_available_models →
      load_model registered_models p model_name =
        .error (.nameError
          ("Model name " ++ model_name ++ " has not yet been created."))) ∧
    (∀ data_dict ctor,
      p.get_model_details model_name = some data_dict →
      registered_models.lookup data_dict.cls = some ctor →
      load_model registered_models p model_name =
        .ok (ctor data_dict.saved_data)) := by
  constructor
  · intro habs
    unfold load_model
    rw [if_neg habs]
  · intro data_dict ctor hd hc
    have hmem : model_name ∈ p.list_available_models :=
      lookup_mem_keys p.models model_name data_dict hd
    unfold load_model
    rw [if_pos hmem]
    show (match p.get_model_details model_name with
      | some data_dict =>
        match registered_models.lookup data_dict.cls with
        | some ctor => Except.ok (ctor data_dict.saved_data)
        | none => Except.error (LoadError.keyError data_dict.cls)
      | none => Except.error (LoadError.keyError model_name)) = _
    rw [hd]
    show (match registered_models.lookup data_dict.cls with
      | some ctor => Except.ok (ctor data_dict.saved_data)
      | none => Except.error (LoadError.keyError data_dict.cls)) = _
    rw [hc]

theorem C8_load_model_witness :
    "missing" ∉ perC8.list_available_models ∧
    load_model regC8 perC8 "missing" =
      .error (.nameError
        ("Model name " ++ "missing" ++ " has not yet been created.")) ∧
    perC8.get_model_details "LDA_3_topics" = some recC8 ∧
    regC8.lookup recC8.cls = some ctorC8 ∧
    load_model regC8 perC8 "LDA_3_topics" = .ok (ctorC8 recC8.saved_data) :=
  ⟨by decide,
    (C8_load_model regC8 perC8 "missing").1 (by decide),
    rfl, rfl,
    (C8_load_model regC8 perC8 "LDA_3_topics").2 recC8 ctorC8 rfl rfl⟩

/-- C9: `save(filename, saved_data)` stores, under the key
`get_model_name_with_parameters()`, the Persisted Model Record made of
the concrete class name and the given metadata as constructor-argument
mapping, and asks the corpus to persist itself under the given
filename. -/
theorem C9_save (m : TopicModelResultBase) (filename : String)
    (saved_data : List (String × String)) (w : SaveWorld) :
    (m.save filename saved_data w).persistor.models.lookup
        m.get_model_name_with_parameters =
      some { cls := m.class_name, saved_data := saved_data } ∧
    filename ∈ (m.save filename saved_data w).corpus_saves := by
  constructor
  · show List.lookup m.get_model_name_with_parameters
      ((m.get_model_name_with_parameters,
        ({ cls := m.class_name, saved_data := saved_data } : ModelRecord)) ::
        w.persistor.models) = _
    simp [List.lookup]
  · show filename ∈ filename :: w.corpus_saves
    exact List.mem_cons_self _ _

/-- C10: on the empty corpus `_get_doc_lengths` fails — unpacking
`zip(*[])` raises `ValueError` — instead of returning an empty table,
and `_get_doc_data`, which composes it, fails with it. -/
theorem C10_empty_corpus (m : TopicModelResultBase)
    (h : m._corpus._corpus = []) :
    m._get_doc_lengths = none ∧ m._get_doc_data = none := by
  have h1 : m._get_doc_lengths = none := by
    unfold TopicModelResultBase._get_doc_lengths
    rw [h]
  refine ⟨h1, ?_⟩
  unfold TopicModelResultBase._get_doc_data
  rw [h1]

theorem C10_empty_corpus_witness :
    mC10._corpus._corpus = [] ∧
    mC10._get_doc_lengths = none ∧ mC10._get_doc_data = none :=
  ⟨rfl, (C10_empty_corpus mC10 rfl).1, (C10_empty_corpus mC10 rfl).2⟩
